import Mathlib

/-!
Verification development for the Azure multi-model proxy (Claude + GPT).

The embedding below translates the transcoding core of the proxy into Lean:
the model router (isGPTModel), the Claude request transcoder
(transformRequestForClaude), the Claude response transcoder
(transformClaudeResponse), the GPT request transcoder (transformRequestForGPT,
structured Responses-API mode), and the two streaming re-chunkers
(handleClaudeStreaming, handleGPTStreaming), modelled at the level of parsed
SSE events.

JavaScript values that flow through the transcoders are modelled by the
inductive type Js.  The JavaScript distinction between an absent field
(undefined), an explicit null, and a value is modelled by JVal where the
code distinguishes them, and collapsed to Option or to a default-valued
field where the code treats them identically (truthiness only).

Three JavaScript runtime primitives are abstracted as parameters in the
structure JsRT rather than reimplemented: JSON.parse (returning none where
the runtime parser would throw), JSON.stringify, and the String()/template
literal coercion.  The transcoders never inspect the internals of these
primitives; every theorem below is universally quantified over them.

Impure chunk envelope fields derived from the wall clock in the source
(the id field, built from Date.now(), and the created field) are omitted
from the StreamChunk and UResponse models; no claim concerns them.
-/

/-- A JavaScript (JSON-like) value. -/
inductive Js where
  | str (s : String)
  | num (n : Int)
  | bool (b : Bool)
  | null
  | arr (xs : List Js)
  | obj (fields : List (String × Js))

/-- undefined / null / value, for fields where the source code distinguishes
all three. -/
inductive JVal (α : Type) where
  | undef
  | null
  | val (a : α)

/-- Property lookup on a JavaScript object; none on non-objects and missing
keys (i.e. the access yields undefined). -/
def lookupField : List (String × Js) → String → Option Js
  | [], _ => none
  | (k, v) :: rest, key => if k = key then some v else lookupField rest key

def Js.get : Js → String → Option Js
  | .obj fields, k => lookupField fields k
  | _, _ => none

/-- JavaScript truthiness of a value. -/
def jsTruthy : Js → Bool
  | .str s => s != ""
  | .num n => n != 0
  | .bool b => b
  | .null => false
  | .arr _ => true
  | .obj _ => true

/-- Truthiness of a possibly-absent value. -/
def jsTruthyV : JVal Js → Bool
  | .val j => jsTruthy j
  | _ => false

/-- The JavaScript string fallback a || b for strings, where only the empty
string is falsy. -/
def jsOrS (a b : String) : String := if a != "" then a else b

/-- The JavaScript fallback o || d for an optional value: the value when
present and truthy, the default otherwise. -/
def jsOrJ (o : Option Js) (d : Js) : Js :=
  match o with
  | some j => if jsTruthy j then j else d
  | none => d

/-- max_tokens || d for a JavaScript number field (0, null and undefined are
falsy). -/
def jsOrInt (v : JVal Int) (d : Int) : Int :=
  match v with
  | .val n => if n != 0 then n else d
  | _ => d

/-- Abstracted JavaScript runtime primitives used by the transcoders.
parseJson returns none exactly where JSON.parse would throw; stringify is
JSON.stringify on defined values; toStr is the String() / template-literal
coercion. -/
structure JsRT where
  parseJson : String → Option Js
  stringify : Js → String
  toStr : Js → String

/-- Lower-case a string (String.prototype.toLowerCase on ASCII model names). -/
def strLower (s : String) : String := String.mk (s.data.map Char.toLower)

def listStarts : List Char → List Char → Bool
  | _, [] => true
  | [], _ :: _ => false
  | a :: as, b :: bs => a = b && listStarts as bs

def listHasSub : List Char → List Char → Bool
  | [], p => p.isEmpty
  | l@(_ :: rest), p => listStarts l p || listHasSub rest p

/-- String.prototype.includes. -/
def strContains (s pat : String) : Bool := listHasSub s.data pat.data

/-! ## Model router -/

def CLAUDE_MODELS : List String := ["claude", "anthropic"]

def GPT_MODELS : List String := ["gpt", "openai", "codex", "o1", "o3"]

/-- isGPTModel from the source: empty name is falsy, otherwise the
lower-cased name is tested for containing any GPT keyword. -/
def isGPTModel (modelName : String) : Bool :=
  if modelName = "" then false
  else GPT_MODELS.any (fun pattern => strContains (strLower modelName) pattern)

/-- isClaudeModel from the source (defined but not consulted by the route
decision in the request handler). -/
def isClaudeModel (modelName : String) : Bool :=
  if modelName = "" then true
  else CLAUDE_MODELS.any (fun pattern => strContains (strLower modelName) pattern)

inductive Vendor where
  | claude
  | gpt
deriving DecidableEq

/-- The route decision in the chat-completions handler:
useGPT = isGPTModel(req.body?.model || ""). -/
def routeModel (model : Option String) : Vendor :=
  if isGPTModel (jsOrS (model.getD "") "") then Vendor.gpt else Vendor.claude

/-! ## Caller-side (OpenAI-shaped) request data model -/

/-- toolCall.function: name and the arguments payload (usually a JSON
string).  A missing or null arguments field is collapsed to none; the empty
string collapses the absent-name case (only truthiness and equality on the
name are ever used). -/
structure ToolCallFn where
  name : String := ""
  arguments : Option Js := none

structure ToolCall where
  id : String := ""
  function : Option ToolCallFn := none
  name : String := ""

/-- tool.function for an OpenAI-nested tool spec. -/
structure ToolFnSpec where
  name : String := ""
  description : String := ""
  parameters : Option Js := none

/-- A caller-supplied tool entry: either OpenAI-nested (type "function" with
a function object) or flat (vendor-native). -/
structure Tool where
  type : String := ""
  function : Option ToolFnSpec := none
  name : String := ""
  description : String := ""
  parameters : Option Js := none
  input_schema : Option Js := none

/-- A chat message.  role, tool_call_id and name collapse absence to the
empty string (only equality and truthiness are used); content keeps the
undefined / null / value distinction used by the message filter. -/
structure Message where
  role : String := ""
  content : JVal Js := JVal.undef
  tool_calls : Option (List ToolCall) := none
  tool_call_id : String := ""
  name : String := ""

/-- tool_choice: a string, or an object whose function.name is fnName
(empty string when absent or falsy). -/
inductive ToolChoice where
  | str (s : String)
  | obj (fnName : String)

def toolChoiceTruthy : ToolChoice → Bool
  | .str s => s != ""
  | .obj _ => true

/-- The caller request.  messages entries can be null (filtered by the
source); a non-array or absent messages field is collapsed to none. -/
structure ChatRequest where
  messages : Option (List (Option Message)) := none
  model : String := ""
  max_tokens : JVal Int := JVal.undef
  temperature : Option Int := none
  stream : Option Bool := none
  role : String := ""
  content : JVal Js := JVal.undef
  input : JVal Js := JVal.undef
  user : String := ""
  tools : Option (List Tool) := none
  tool_choice : Option ToolChoice := none
  metadata : Option Js := none
  stop_sequences : Option Js := none
  top_p : Option Js := none
  top_k : Option Js := none
  system : Option Js := none

/-- The configured deployment names (environment-sourced). -/
structure Config where
  AZURE_DEPLOYMENT_NAME : String := ""
  AZURE_OPENAI_MODEL : String := ""

/-! ## Vendor A (Claude-style) request model -/

/-- A content block constructed by the Claude request transcoder.  The text
block carries the raw message content value, exactly as the source pushes
msg.content into a text block. -/
inductive ABlock where
  | textB (text : Js)
  | toolUse (id : String) (name : String) (input : Js)
  | toolResult (tool_use_id : String) (content : JVal String)

/-- Content of a produced Claude message: a built string, a built block
list, or the caller content passed through verbatim. -/
inductive AContent where
  | str (s : String)
  | blocks (bs : List ABlock)
  | raw (c : JVal Js)

structure AMessage where
  role : String
  content : AContent

inductive AToolChoice where
  | auto
  | any
  | tool (name : String)

/-- A tool forwarded to Vendor A: translated from the OpenAI nested shape,
or the original entry passed through unchanged. -/
inductive ATool where
  | native (name : String) (description : String) (input_schema : Js)
  | passthrough (t : Tool)

structure ARequest where
  model : String
  messages : List AMessage
  max_tokens : Int
  temperature : Option Int := none
  stream : Option Bool := none
  tools : Option (List ATool) := none
  tool_choice : Option AToolChoice := none
  metadata : Option Js := none
  stop_sequences : Option Js := none
  top_p : Option Js := none
  top_k : Option Js := none
  system : Option Js := none

/-! ## Claude request transcoder (transformRequestForClaude) -/

/-- The message filter: msg && (msg.content || msg.content === "" || msg.tool_calls). -/
def keepClaudeMessage : Option Message → Bool
  | none => false
  | some m =>
    jsTruthyV m.content
      || (match m.content with | .val (.str s) => s = "" | _ => false)
      || m.tool_calls.isSome

/-- The resolved name of a tool call: toolCall.function?.name || toolCall.name. -/
def toolCallName (tc : ToolCall) : String :=
  jsOrS (match tc.function with | some f => f.name | none => "") tc.name

/-- The input of a tool_use block: a string arguments field is JSON-parsed
with an empty-object fallback on parse failure; a non-string field falls
back to an empty object when falsy. -/
def toolCallInput (rt : JsRT) (tc : ToolCall) : Js :=
  match tc.function with
  | none => Js.obj []
  | some f =>
    match f.arguments with
    | some (.str s) =>
      match rt.parseJson s with
      | some j => j
      | none => Js.obj []
    | some j => if jsTruthy j then j else Js.obj []
    | none => Js.obj []

/-- The tool_use content block built for one tool call. -/
def mapToolCallBlock (rt : JsRT) (tc : ToolCall) : ABlock :=
  ABlock.toolUse tc.id (toolCallName tc) (toolCallInput rt tc)

/-- The per-message translation of the messages-array path. -/
def mapClaudeMessage (rt : JsRT) (m : Message) : AMessage :=
  if m.role = "system" then
    { role := "user"
    , content :=
        match m.content with
        | .val (.str s) => AContent.str ("System: " ++ s)
        | c => AContent.raw c }
  else if m.role = "tool" || m.role = "function" then
    { role := "user"
    , content := AContent.blocks
        [ABlock.toolResult (jsOrS m.tool_call_id m.name)
          (match m.content with
           | .val (.str s) => JVal.val s
           | .val j => JVal.val (rt.stringify j)
           | .null => JVal.val (rt.stringify Js.null)
           | .undef => JVal.undef)] }
  else
    match m.tool_calls with
    | some tcs =>
      if m.role = "assistant" then
        { role := "assistant"
        , content := AContent.blocks
            ((match m.content with
              | .val j => if jsTruthy j then [ABlock.textB j] else []
              | _ => []) ++ tcs.map (mapToolCallBlock rt)) }
      else
        { role := "user", content := AContent.raw m.content }
    | none =>
      { role := if m.role = "assistant" then "assistant" else "user"
      , content := AContent.raw m.content }

/-- One entry of the input-array fallback path is kept when it is truthy and
its content property is not undefined. -/
def keepInputEntry (j : Js) : Bool :=
  jsTruthy j && (j.get "content").isSome

/-- Reads a string-valued property, with the empty string standing for a
missing or non-string value (only === comparisons are made on it). -/
def jsGetStr (j : Js) (k : String) : String :=
  match j.get k with
  | some (.str s) => s
  | _ => ""

/-- The per-entry translation of the input-array fallback path; system
entries become a user turn with template-literal coercion of the content. -/
def mapInputEntry (rt : JsRT) (j : Js) : AMessage :=
  let c : JVal Js := match j.get "content" with | some v => JVal.val v | none => JVal.undef
  if jsGetStr j "role" = "system" then
    { role := "user"
    , content := AContent.str ("System: " ++
        (match j.get "content" with | some v => rt.toStr v | none => "")) }
  else
    { role := if jsGetStr j "role" = "assistant" then "assistant" else "user"
    , content := AContent.raw c }

/-- The four-way branch selecting the message source: messages array, a
role/content pair, an input array or scalar, or a bare content value. -/
def buildClaudeMessages (rt : JsRT) (req : ChatRequest) : Except String (List AMessage) :=
  match req.messages with
  | some msgs =>
    Except.ok ((msgs.filter keepClaudeMessage).map
      (fun om => match om with
        | some m => mapClaudeMessage rt m
        | none => { role := "user", content := AContent.raw JVal.undef }))
  | none =>
    if req.role != "" && jsTruthyV req.content then
      Except.ok
        [{ role := if req.role = "system" then "user" else req.role
         , content :=
            if req.role = "system" then
              AContent.str ("System: " ++
                (match req.content with | .val v => rt.toStr v | _ => ""))
            else AContent.raw req.content }]
    else if jsTruthyV req.input then
      match req.input with
      | .val (.arr items) =>
        Except.ok ((items.filter keepInputEntry).map (mapInputEntry rt))
      | .val j =>
        Except.ok [{ role := jsOrS req.user "user", content := AContent.raw (JVal.val j) }]
      | _ => Except.error "Invalid request format"
    else if jsTruthyV req.content then
      Except.ok [{ role := "user", content := AContent.raw req.content }]
    else
      Except.error "Invalid request format"

/-- The Anthropic-format tool list: nested function tools are flattened,
anything else passes through.  A type "function" entry with no function
object raises a TypeError in the source (tool.function.name on undefined),
modelled as an error. -/
def mapClaudeTool (t : Tool) : Except String ATool :=
  if t.type = "function" then
    match t.function with
    | some f =>
      Except.ok (ATool.native f.name f.description
        (jsOrJ f.parameters (Js.obj [("type", Js.str "object"), ("properties", Js.obj [])])))
    | none => Except.error "TypeError: cannot read name of undefined"
  else
    Except.ok (ATool.passthrough t)

/-- The .map over the tools array, with the first TypeError aborting. -/
def mapEachClaudeTool : List Tool → Except String (List ATool)
  | [] => Except.ok []
  | t :: ts =>
    match mapClaudeTool t with
    | .error e => Except.error e
    | .ok a =>
      match mapEachClaudeTool ts with
      | .error e => Except.error e
      | .ok r => Except.ok (a :: r)

def mapClaudeTools : Option (List Tool) → Except String (Option (List ATool))
  | some ts =>
    if ts.length > 0 then
      match mapEachClaudeTool ts with
      | .ok mapped => Except.ok (some mapped)
      | .error e => Except.error e
    else Except.ok none
  | none => Except.ok none

/-- The tool_choice block: auto / none / required / a named function; the
string none deletes the tools key entirely. -/
def applyClaudeToolChoice (tools : Option (List ATool)) (tc : Option ToolChoice) :
    Option (List ATool) × Option AToolChoice :=
  match tc with
  | none => (tools, none)
  | some c =>
    if toolChoiceTruthy c then
      match c with
      | .str s =>
        if s = "auto" then (tools, some AToolChoice.auto)
        else if s = "none" then (none, none)
        else if s = "required" then (tools, some AToolChoice.any)
        else (tools, none)
      | .obj fnName =>
        if fnName != "" then (tools, some (AToolChoice.tool fnName))
        else (tools, none)
    else (tools, none)

/-- The system field: an array is kept as is, anything else is coerced with
String(). -/
def mapSystemField (rt : JsRT) : Option Js → Option Js
  | none => none
  | some j =>
    match j with
    | .arr xs => some (Js.arr xs)
    | _ => some (Js.str (rt.toStr j))

/-- transformRequestForClaude: the full Claude request transcoder. -/
def transformRequestForClaude (rt : JsRT) (cfg : Config) (req : ChatRequest) :
    Except String ARequest :=
  match buildClaudeMessages rt req with
  | .error e => Except.error e
  | .ok msgs =>
    if msgs.isEmpty then Except.error "Invalid request: no valid messages found"
    else
      match mapClaudeTools req.tools with
      | .error e => Except.error e
      | .ok tools0 =>
        let p := applyClaudeToolChoice tools0 req.tool_choice
        Except.ok
          { model := cfg.AZURE_DEPLOYMENT_NAME
          , messages := msgs
          , max_tokens := jsOrInt req.max_tokens 8192
          , temperature := req.temperature
          , stream := req.stream
          , tools := p.1
          , tool_choice := p.2
          , metadata := req.metadata
          , stop_sequences := req.stop_sequences
          , top_p := req.top_p
          , top_k := req.top_k
          , system := mapSystemField rt req.system }

/-! ## Claude response transcoder (transformClaudeResponse) -/

structure RUsage where
  input_tokens : Option Int := none
  output_tokens : Option Int := none

/-- A content block of a Vendor A non-streaming response. -/
inductive RBlock where
  | text (text : String)
  | toolUse (id : String) (name : String) (input : Js)
  | other

structure AnthropicResponse where
  id : String := ""
  model : String := ""
  stop_reason : String := ""
  content : Option (List RBlock) := none
  usage : Option RUsage := none

/-- An OpenAI-shaped tool-call entry of the unified response. -/
structure OToolCall where
  id : String
  type : String
  name : String
  arguments : String

/-- The unified (OpenAI-chat-completion-shaped) response; the created field
(wall clock) is omitted. -/
structure UResponse where
  id : String
  object : String
  model : String
  content : Option String
  tool_calls : Option (List OToolCall)
  finish_reason : String
  prompt_tokens : Int
  completion_tokens : Int
  total_tokens : Int

/-- The block loop: text blocks concatenate, tool_use blocks append
tool-call entries, anything else is skipped. -/
def foldRBlocks (rt : JsRT) : List RBlock → String × List OToolCall
  | [] => ("", [])
  | b :: bs =>
    let p := foldRBlocks rt bs
    match b with
    | .text s => (s ++ p.1, p.2)
    | .toolUse id name input =>
      (p.1, { id := id, type := "function", name := name
            , arguments := rt.stringify input } :: p.2)
    | .other => p

/-- transformClaudeResponse: Vendor A response to unified response. -/
def transformClaudeResponse (rt : JsRT) (r : AnthropicResponse) : UResponse :=
  let finish :=
    if r.stop_reason = "tool_use" then "tool_calls"
    else if r.stop_reason = "end_turn" then "stop"
    else r.stop_reason
  let pt : Int := match r.usage with | some u => u.input_tokens.getD 0 | none => 0
  let ct : Int := match r.usage with | some u => u.output_tokens.getD 0 | none => 0
  let p := foldRBlocks rt (r.content.getD [])
  { id := r.id
  , object := "chat.completion"
  , model := r.model
  , content := if p.1 != "" then some p.1 else none
  , tool_calls := if p.2.length > 0 then some p.2 else none
  , finish_reason := finish
  , prompt_tokens := pt
  , completion_tokens := ct
  , total_tokens := pt + ct }

/-! ## GPT request transcoder (transformRequestForGPT, structured mode) -/

/-- An item of the Responses-API input list. -/
inductive GInputItem where
  | message (role : String) (content : String)
  | functionCall (call_id : String) (name : String) (arguments : Js)
  | functionCallOutput (call_id : String) (output : String)

/-- A tool forwarded to Vendor B. -/
structure GTool where
  type : String
  name : String
  description : String
  parameters : Js
  strict : Bool

inductive GToolChoice where
  | str (s : String)
  | fnChoice (name : String)

structure GRequest where
  model : String
  input : List GInputItem
  max_output_tokens : Int
  instructions : Option String := none
  temperature : Option Int := none
  stream : Option Bool := none
  tools : Option (List GTool) := none
  tool_choice : Option GToolChoice := none

/-- The value one content part contributes before flattening: a string part
contributes itself, a text-typed object part contributes its truthy text
value; everything else contributes nothing (none, matching filter(Boolean)). -/
def partVal (p : Js) : Option Js :=
  match p with
  | .str s => if s != "" then some (Js.str s) else none
  | _ =>
    if jsGetStr p "type" = "text"
        || jsGetStr p "type" = "input_text"
        || jsGetStr p "type" = "output_text" then
      match p.get "text" with
      | some j => if jsTruthy j then some j else none
      | none => none
    else none

/-- textFromParts: a string is itself, an array flattens the text-bearing
parts joined by newlines, anything else is empty. -/
def textFromParts (rt : JsRT) (c : JVal Js) : String :=
  match c with
  | .val (.str s) => s
  | .val (.arr parts) =>
    String.intercalate "\n"
      ((parts.filterMap partVal).map
        (fun j => match j with | .str s => s | j => rt.toStr j))
  | _ => ""

/-- normalizeToolOutput: string as is; array via textFromParts with a
JSON.stringify fallback; undefined and null empty; other objects
JSON.stringify; primitives coerced with String(). -/
def normalizeToolOutput (rt : JsRT) (c : JVal Js) : String :=
  match c with
  | .val (.str s) => s
  | .val (.arr xs) =>
    let t := textFromParts rt (JVal.val (Js.arr xs))
    if t != "" then t else rt.stringify (Js.arr xs)
  | .undef => ""
  | .null => ""
  | .val (.obj fields) => rt.stringify (Js.obj fields)
  | .val j => rt.toStr j

/-- Accumulate a system text into the instructions string:
systemPrompt ? systemPrompt + newline + text : text (the empty string is
falsy). -/
def foldSys (sp : Option String) (t : String) : Option String :=
  match sp with
  | some s => if s != "" then some (s ++ "\n" ++ t) else some t
  | none => some t

/-- The arguments payload of an assistant tool call forwarded to Vendor B:
tc.function?.arguments || a literal empty-object string. -/
def gptCallArguments (tc : ToolCall) : Js :=
  match tc.function with
  | some f =>
    match f.arguments with
    | some j => if jsTruthy j then j else Js.str "\x7b\x7d"
    | none => Js.str "\x7b\x7d"
  | none => Js.str "\x7b\x7d"

/-- The per-message step of the messages loop: extends the item list and the
accumulated system prompt. -/
def gptMessageStep (rt : JsRT) (acc : List GInputItem × Option String)
    (om : Option Message) : List GInputItem × Option String :=
  match om with
  | none => acc
  | some m =>
    if m.role = "system" then
      (acc.1, foldSys acc.2 (textFromParts rt m.content))
    else if m.role = "user" then
      let ct := textFromParts rt m.content
      if ct != "" then (acc.1 ++ [GInputItem.message "user" ct], acc.2) else acc
    else if m.role = "assistant" then
      let ct := textFromParts rt m.content
      let withText :=
        if ct != "" then acc.1 ++ [GInputItem.message "assistant" ct] else acc.1
      match m.tool_calls with
      | some tcs =>
        (withText ++ tcs.map (fun tc =>
          GInputItem.functionCall tc.id
            (match tc.function with | some f => f.name | none => "")
            (gptCallArguments tc)), acc.2)
      | none => (withText, acc.2)
    else if m.role = "tool" || m.role = "function" then
      (acc.1 ++ [GInputItem.functionCallOutput m.tool_call_id
        (normalizeToolOutput rt m.content)], acc.2)
    else acc

/-- The per-entry step of the input-array fallback: strings become user
messages, system and developer entries fold into instructions, message-like
entries with text become user or assistant messages. -/
def gptInputStep (rt : JsRT) (acc : List GInputItem × Option String)
    (item : Js) : List GInputItem × Option String :=
  if !jsTruthy item then acc
  else
    match item with
    | .str s => (acc.1 ++ [GInputItem.message "user" s], acc.2)
    | _ =>
      let itemRole := jsGetStr item "role"
      let itemContent :=
        match item.get "content" with
        | some (.str s) => s
        | some j => textFromParts rt (JVal.val j)
        | none => ""
      if itemRole = "system" || itemRole = "developer" then
        if itemContent != "" then (acc.1, foldSys acc.2 itemContent) else acc
      else
        let roleTruthy := match item.get "role" with | some j => jsTruthy j | none => false
        if (jsGetStr item "type" = "message" || roleTruthy)
            && itemContent != "" then
          (acc.1 ++ [GInputItem.message
            (if itemRole = "assistant" then "assistant" else "user") itemContent], acc.2)
        else acc

/-- The safety net: strips any message item still tagged system or
developer, folding its text into the instructions accumulator. -/
def stripSysDev : List GInputItem → Option String → List GInputItem × Option String
  | [], sp => ([], sp)
  | it :: rest, sp =>
    match it with
    | .message r c =>
      if r = "system" || r = "developer" then
        stripSysDev rest (if c != "" then foldSys sp c else sp)
      else
        let p := stripSysDev rest sp
        (it :: p.1, p.2)
    | _ =>
      let p := stripSysDev rest sp
      (it :: p.1, p.2)

/-- A Vendor B tool entry survives the filter when it resolves a name:
tool.function?.name || tool.name. -/
def gptToolKept (t : Tool) : Bool :=
  (match t.function with | some f => f.name != "" | none => false) || t.name != ""

def gptDefaultSchema : Js := Js.obj [("type", Js.str "object"), ("properties", Js.obj [])]

/-- The Vendor B tool mapping: nested function tools, flat named tools
(parameters falling back to input_schema), anything else dropped. -/
def mapGptTool (t : Tool) : Option GTool :=
  if t.type = "function" && t.function.isSome then
    match t.function with
    | some f =>
      some { type := "function", name := f.name, description := f.description
           , parameters := jsOrJ f.parameters gptDefaultSchema, strict := false }
    | none => none
  else if t.name != "" then
    some { type := "function", name := t.name, description := t.description
         , parameters := jsOrJ t.parameters (jsOrJ t.input_schema gptDefaultSchema)
         , strict := false }
  else none

/-- The item list and accumulated system prompt before the safety net: the
messages loop, then the input-array fallback when no item was produced or
messages was absent. -/
def gptBuildItems (rt : JsRT) (req : ChatRequest) : List GInputItem × Option String :=
  let fromMessages : List GInputItem × Option String :=
    match req.messages with
    | some msgs => msgs.foldl (gptMessageStep rt) ([], none)
    | none => ([], none)
  if (fromMessages.1.isEmpty || req.messages.isNone)
      && !(req.input matches JVal.undef) then
    match req.input with
    | .val (.str s) => (fromMessages.1 ++ [GInputItem.message "user" s], fromMessages.2)
    | .val (.arr items) => items.foldl (gptInputStep rt) fromMessages
    | _ => fromMessages
  else fromMessages

/-- transformRequestForGPT: the structured-mode Vendor B request transcoder. -/
def transformRequestForGPT (rt : JsRT) (cfg : Config) (req : ChatRequest) :
    Except String GRequest :=
  let stripped := stripSysDev (gptBuildItems rt req).1 (gptBuildItems rt req).2
  if stripped.1.isEmpty then
    Except.error "No usable input/messages for GPT request"
  else
    let toolsMapped : Option (List GTool) :=
      match req.tools with
      | some ts =>
        if ts.length > 0 then some ((ts.filter gptToolKept).filterMap mapGptTool)
        else none
      | none => none
    let tcTruthy := match req.tool_choice with
      | some c => toolChoiceTruthy c
      | none => false
    let tcDefault : Option GToolChoice :=
      if toolsMapped.isSome && !tcTruthy then some (GToolChoice.str "auto") else none
    let tcFinal : Option GToolChoice :=
      if tcTruthy then
        match req.tool_choice with
        | some (.str s) =>
          if s = "auto" || s = "none" || s = "required" then some (GToolChoice.str s)
          else none
        | some (.obj fnName) =>
          if fnName != "" then some (GToolChoice.fnChoice fnName) else none
        | none => none
      else tcDefault
    Except.ok
      { model := cfg.AZURE_OPENAI_MODEL
      , input := stripped.1
      , max_output_tokens := jsOrInt req.max_tokens 16384
      , instructions :=
          match stripped.2 with
          | some s => if s != "" then some s else none
          | none => none
      , temperature := req.temperature
      , stream := req.stream
      , tools := toolsMapped
      , tool_choice := tcFinal }

/-! ## Streaming re-chunker models

The re-chunkers are modelled at the level of parsed SSE events: the source
framing (buffering on newlines, the data-colon-space line filter, the DONE
passthrough, and the skip of lines that fail to parse as JSON) delivers to
the event handlers exactly a sequence of parsed JSON events, which is what
the lists below represent. -/

/-- The delta payload of an outbound chat-completion chunk, covering the
four shapes the source emits. -/
inductive ChunkDelta where
  | toolCallHeader (index : Nat) (id : String) (ctype : String) (name : String)
      (arguments : String)
  | toolCallArgs (index : Nat) (arguments : String)
  | contentDelta (content : String)
  | emptyDelta

/-- An outbound chunk (id and created, wall-clock derived, omitted). -/
structure StreamChunk where
  object : String
  model : String
  delta : ChunkDelta
  finish_reason : Option String

/-- One outbound SSE write: a data chunk or the DONE terminator line. -/
inductive SSEOut where
  | chunk (c : StreamChunk)
  | doneMarker

/-! ### Vendor A (Claude) events -/

/-- event.content_block of a content_block_start event. -/
inductive ABlockInfo where
  | toolUseB (id : String) (name : String)
  | otherB

/-- event.delta of a content_block_delta event. -/
inductive ADelta where
  | textDelta (text : String)
  | inputJsonDelta (pjson : String)
  | otherDelta

/-- A parsed Vendor A streaming event; event types the source does not
branch on are otherEvent. -/
inductive AEvent where
  | contentBlockStart (index : Nat) (content_block : ABlockInfo)
  | contentBlockDelta (index : Nat) (delta : ADelta)
  | contentBlockStop (index : Nat)
  | messageStop
  | otherEvent

/-- The per-request state of handleClaudeStreaming: the index-to-block map
and the running tool-call counter. -/
structure CState where
  contentBlocks : Nat → Option ABlockInfo
  currentToolCallIndex : Nat

def updateBlocks (m : Nat → Option ABlockInfo) (idx : Nat) (b : ABlockInfo) :
    Nat → Option ABlockInfo :=
  fun i => if i = idx then some b else m i

/-- One step of handleClaudeStreaming on a parsed event: the new state and
the chunks written. -/
def claudeStreamStep (model : String) (st : CState) :
    AEvent → CState × List SSEOut
  | .contentBlockStart idx cb =>
    let st1 : CState := { st with contentBlocks := updateBlocks st.contentBlocks idx cb }
    match cb with
    | .toolUseB id name =>
      (st1, [SSEOut.chunk
        { object := "chat.completion.chunk", model := model
        , delta := ChunkDelta.toolCallHeader st.currentToolCallIndex id "function" name ""
        , finish_reason := none }])
    | .otherB => (st1, [])
  | .contentBlockDelta _ d =>
    match d with
    | .textDelta t =>
      (st, [SSEOut.chunk
        { object := "chat.completion.chunk", model := model
        , delta := ChunkDelta.contentDelta t, finish_reason := none }])
    | .inputJsonDelta s =>
      (st, [SSEOut.chunk
        { object := "chat.completion.chunk", model := model
        , delta := ChunkDelta.toolCallArgs st.currentToolCallIndex s
        , finish_reason := none }])
    | .otherDelta => (st, [])
  | .contentBlockStop idx =>
    (match st.contentBlocks idx with
     | some (.toolUseB _ _) =>
       { st with currentToolCallIndex := st.currentToolCallIndex + 1 }
     | _ => st, [])
  | .messageStop =>
    (st, [SSEOut.chunk
      { object := "chat.completion.chunk", model := model
      , delta := ChunkDelta.emptyDelta
      , finish_reason :=
          some (if st.currentToolCallIndex > 0 then "tool_calls" else "stop") }
    , SSEOut.doneMarker])
  | .otherEvent => (st, [])

def claudeRunFrom (model : String) (st : CState) :
    List AEvent → CState × List SSEOut
  | [] => (st, [])
  | e :: es =>
    let p := claudeStreamStep model st e
    let q := claudeRunFrom model p.1 es
    (q.1, p.2 ++ q.2)

def initCState : CState := { contentBlocks := fun _ => none, currentToolCallIndex := 0 }

/-- handleClaudeStreaming on a whole event sequence; the chunk model field
is req.body.model || the fixed default. -/
def handleClaudeStreamingEvents (reqModel : String) (events : List AEvent) :
    List SSEOut :=
  (claudeRunFrom (jsOrS reqModel "claude-opus-4-5") initCState events).2

/-! ### Vendor B (GPT) events -/

/-- event.item of output_item events. -/
inductive GItem where
  | functionCall (call_id : String) (id : String) (name : String)
  | otherItem

/-- A parsed Vendor B streaming event.  outputTextDelta covers both
response.output_text.delta and response.text.delta; responseDone covers
response.done and response.completed; contentBlockDeltaText is the fallback
branch for a generic content_block_delta with a truthy delta.text. -/
inductive GEvent where
  | outputItemAdded (item : GItem)
  | outputTextDelta (delta : String)
  | functionCallArgumentsDelta (delta : String)
  | outputItemDone (item : GItem)
  | responseDone
  | contentBlockDeltaText (text : String)
  | otherG

/-- One step of handleGPTStreaming; the state is the running tool-call
counter. -/
def gptStreamStep (model : String) (st : Nat) : GEvent → Nat × List SSEOut
  | .outputItemAdded item =>
    match item with
    | .functionCall call_id id name =>
      (st, [SSEOut.chunk
        { object := "chat.completion.chunk", model := model
        , delta := ChunkDelta.toolCallHeader st (jsOrS call_id id) "function"
            (jsOrS name "") ""
        , finish_reason := none }])
    | .otherItem => (st, [])
  | .outputTextDelta d =>
    (st, [SSEOut.chunk
      { object := "chat.completion.chunk", model := model
      , delta := ChunkDelta.contentDelta (jsOrS d ""), finish_reason := none }])
  | .functionCallArgumentsDelta d =>
    (st, [SSEOut.chunk
      { object := "chat.completion.chunk", model := model
      , delta := ChunkDelta.toolCallArgs st (jsOrS d ""), finish_reason := none }])
  | .outputItemDone item =>
    (match item with
     | .functionCall _ _ _ => st + 1
     | .otherItem => st, [])
  | .responseDone =>
    (st, [SSEOut.chunk
      { object := "chat.completion.chunk", model := model
      , delta := ChunkDelta.emptyDelta
      , finish_reason := some (if st > 0 then "tool_calls" else "stop") }
    , SSEOut.doneMarker])
  | .contentBlockDeltaText t =>
    if t != "" then
      (st, [SSEOut.chunk
        { object := "chat.completion.chunk", model := model
        , delta := ChunkDelta.contentDelta t, finish_reason := none }])
    else (st, [])
  | .otherG => (st, [])

def gptRunFrom (model : String) (st : Nat) : List GEvent → Nat × List SSEOut
  | [] => (st, [])
  | e :: es =>
    let p := gptStreamStep model st e
    let q := gptRunFrom model p.1 es
    (q.1, p.2 ++ q.2)

/-- handleGPTStreaming on a whole event sequence; the chunk model field is
req.body.model || the configured model. -/
def handleGPTStreamingEvents (reqModel cfgModel : String) (events : List GEvent) :
    List SSEOut :=
  (gptRunFrom (jsOrS reqModel cfgModel) 0 events).2

/-! ## Streaming: helper chunk constructors and well-formed streams -/

def textChunkOf (model t : String) : SSEOut :=
  SSEOut.chunk { object := "chat.completion.chunk", model := model
               , delta := ChunkDelta.contentDelta t, finish_reason := none }

def argsChunkOf (model : String) (k : Nat) (s : String) : SSEOut :=
  SSEOut.chunk { object := "chat.completion.chunk", model := model
               , delta := ChunkDelta.toolCallArgs k s, finish_reason := none }

def headerChunkOf (model : String) (k : Nat) (id name : String) : SSEOut :=
  SSEOut.chunk { object := "chat.completion.chunk", model := model
               , delta := ChunkDelta.toolCallHeader k id "function" name ""
               , finish_reason := none }

def finalChunkOf (model : String) (k : Nat) : SSEOut :=
  SSEOut.chunk { object := "chat.completion.chunk", model := model
               , delta := ChunkDelta.emptyDelta
               , finish_reason := some (if k > 0 then "tool_calls" else "stop") }

/-- Concatenation of the delta.tool_calls function.arguments fragments at a
given tool-call index across an output sequence (the header contributes its
empty arguments string). -/
def toolArgsConcat (outs : List SSEOut) (i : Nat) : String :=
  outs.foldl (fun acc o =>
    match o with
    | .chunk c =>
      match c.delta with
      | .toolCallHeader j _ _ _ args => if j = i then acc ++ args else acc
      | .toolCallArgs j s => if j = i then acc ++ s else acc
      | _ => acc
    | _ => acc) ""

/-- A well-formed Vendor A stream is a sequence of complete content blocks:
each block opens, streams its deltas, and closes before the next opens (the
shape Vendor A emits). -/
inductive APhase where
  | textBlock (idx : Nat) (frags : List String)
  | toolBlock (idx : Nat) (id : String) (name : String) (frags : List String)

def aPhaseIdx : APhase → Nat
  | .textBlock idx _ => idx
  | .toolBlock idx _ _ _ => idx

def aPhaseBlockInfo : APhase → ABlockInfo
  | .textBlock _ _ => ABlockInfo.otherB
  | .toolBlock _ id name _ => ABlockInfo.toolUseB id name

def aPhaseToolCount : APhase → Nat
  | .textBlock _ _ => 0
  | .toolBlock _ _ _ _ => 1

def aPhaseEvents : APhase → List AEvent
  | .textBlock idx frags =>
    AEvent.contentBlockStart idx ABlockInfo.otherB ::
      (frags.map (fun t => AEvent.contentBlockDelta idx (ADelta.textDelta t)) ++
        [AEvent.contentBlockStop idx])
  | .toolBlock idx id name frags =>
    AEvent.contentBlockStart idx (ABlockInfo.toolUseB id name) ::
      (frags.map (fun s => AEvent.contentBlockDelta idx (ADelta.inputJsonDelta s)) ++
        [AEvent.contentBlockStop idx])

/-- The chunks the re-chunker is expected to emit for one block when the
running tool-call counter is k. -/
def aPhaseChunksAt (model : String) (k : Nat) : APhase → List SSEOut
  | .textBlock _ frags => frags.map (textChunkOf model)
  | .toolBlock _ id name frags =>
    headerChunkOf model k id name :: frags.map (argsChunkOf model k)

def aToolCount : List APhase → Nat
  | [] => 0
  | p :: ps => aPhaseToolCount p + aToolCount ps

def aChunksFrom (model : String) (k : Nat) : List APhase → List SSEOut
  | [] => []
  | p :: ps => aPhaseChunksAt model k p ++ aChunksFrom model (k + aPhaseToolCount p) ps

def blocksAfter : List APhase → (Nat → Option ABlockInfo) → (Nat → Option ABlockInfo)
  | [], m => m
  | p :: ps, m => blocksAfter ps (updateBlocks m (aPhaseIdx p) (aPhaseBlockInfo p))

def aStream (ps : List APhase) : List AEvent :=
  (ps.map aPhaseEvents).flatten ++ [AEvent.messageStop]

/-- The full expected output: per-block chunks with the k-th tool call (in
stream order, zero-based) at index k, then the terminal chunk and the DONE
marker. -/
def aExpected (model : String) (ps : List APhase) : List SSEOut :=
  aChunksFrom model 0 ps ++ [finalChunkOf model (aToolCount ps), SSEOut.doneMarker]

/-- A well-formed Vendor B stream is a sequence of text-delta runs and
complete function_call items (added, argument deltas, done). -/
inductive GPhase where
  | textRun (frags : List String)
  | funcItem (call_id : String) (id : String) (name : String) (frags : List String)

def gPhaseToolCount : GPhase → Nat
  | .textRun _ => 0
  | .funcItem _ _ _ _ => 1

def gPhaseEvents : GPhase → List GEvent
  | .textRun frags => frags.map GEvent.outputTextDelta
  | .funcItem c i n frags =>
    GEvent.outputItemAdded (GItem.functionCall c i n) ::
      (frags.map GEvent.functionCallArgumentsDelta ++
        [GEvent.outputItemDone (GItem.functionCall c i n)])

def gPhaseChunksAt (model : String) (k : Nat) : GPhase → List SSEOut
  | .textRun frags => frags.map (textChunkOf model)
  | .funcItem c i n frags =>
    headerChunkOf model k (jsOrS c i) n :: frags.map (argsChunkOf model k)

def gToolCount : List GPhase → Nat
  | [] => 0
  | p :: ps => gPhaseToolCount p + gToolCount ps

def gChunksFrom (model : String) (k : Nat) : List GPhase → List SSEOut
  | [] => []
  | p :: ps => gPhaseChunksAt model k p ++ gChunksFrom model (k + gPhaseToolCount p) ps

def gStream (ps : List GPhase) : List GEvent :=
  (ps.map gPhaseEvents).flatten ++ [GEvent.responseDone]

def gExpected (model : String) (ps : List GPhase) : List SSEOut :=
  gChunksFrom model 0 ps ++ [finalChunkOf model (gToolCount ps), SSEOut.doneMarker]

/-! ## Concrete inputs used by the claims and their witnesses -/

/-- A concrete runtime instantiation (a parser that always fails, opaque
stringify and coercion) used by witnesses; the theorems hold for every
runtime. -/
def rt0 : JsRT :=
  { parseJson := fun _ => none, stringify := fun _ => "", toStr := fun _ => "" }

def cfg0 : Config :=
  { AZURE_DEPLOYMENT_NAME := "claude-opus-4-5", AZURE_OPENAI_MODEL := "gpt-5.3-codex" }

/-- The Vendor A event sequence of claim C1: a tool_use block with two
input_json_delta fragments, closed, then message_stop. -/
def c1Events (idx : Nat) (X Y : String) : List AEvent :=
  [ AEvent.contentBlockStart idx (ABlockInfo.toolUseB X Y)
  , AEvent.contentBlockDelta idx (ADelta.inputJsonDelta "\x7b\"a\":")
  , AEvent.contentBlockDelta idx (ADelta.inputJsonDelta "1\x7d")
  , AEvent.contentBlockStop idx
  , AEvent.messageStop ]

/-- The single-turn request of claim C3. -/
def reqSingleHi : ChatRequest :=
  { messages := some [some { role := "user", content := JVal.val (Js.str "hi") }] }

/-- The canned Vendor A non-streaming response of claim C3. -/
def cannedHelloResponse : AnthropicResponse :=
  { content := some [RBlock.text "hello"]
  , stop_reason := "end_turn"
  , usage := some { input_tokens := some 3, output_tokens := some 2 } }

/-- A content value that counts as content for the message filter of claim
C5: a string (including the empty string) or a parts array. -/
def hasStrOrArrContent (c : JVal Js) : Prop :=
  (∃ s, c = JVal.val (Js.str s)) ∨ (∃ ps, c = JVal.val (Js.arr ps))

/-- The data-model typing of message content: absent, null, a string, or a
parts array. -/
def contentWellTyped (c : JVal Js) : Prop :=
  c = JVal.undef ∨ c = JVal.null ∨ hasStrOrArrContent c

/-- The assistant tool call of claim C4, whose arguments string the witness
runtime fails to parse. -/
def tc4 : ToolCall :=
  { id := "call_1"
  , function := some { name := "f", arguments := some (Js.str "not json") } }

def m4 : Message := { role := "assistant", tool_calls := some [tc4] }

def req4 : ChatRequest := { messages := some [some m4] }

/-- The request of the C9 witness: non-empty tools with tool_choice none. -/
def req9 : ChatRequest :=
  { messages := some [some { role := "user", content := JVal.val (Js.str "hi") }]
  , tools := some [{ type := "function", function := some { name := "f" } }]
  , tool_choice := some (ToolChoice.str "none") }

def out9 : ARequest :=
  { model := "claude-opus-4-5"
  , messages := [{ role := "user", content := AContent.raw (JVal.val (Js.str "hi")) }]
  , max_tokens := 8192 }

/-- The request of the C7 witness: a caller-supplied model name that matches
no mapping. -/
def reqC7 : ChatRequest :=
  { messages := some [some { role := "user", content := JVal.val (Js.str "hi") }]
  , model := "totally-custom-model" }

def outC7 : ARequest :=
  { model := "claude-opus-4-5"
  , messages := [{ role := "user", content := AContent.raw (JVal.val (Js.str "hi")) }]
  , max_tokens := 8192 }

/-- The request of the C10 witness: max_tokens present but zero. -/
def req10 : ChatRequest :=
  { messages := some [some { role := "user", content := JVal.val (Js.str "hi") }]
  , max_tokens := JVal.val 0 }

def out10 : ARequest :=
  { model := "claude-opus-4-5"
  , messages := [{ role := "user", content := AContent.raw (JVal.val (Js.str "hi")) }]
  , max_tokens := 8192 }

/-- The request of the C6 witness: input-array shape with a system entry and
a user entry. -/
def req6 : ChatRequest :=
  { input := JVal.val (Js.arr
      [ Js.obj [("role", Js.str "system"), ("content", Js.str "be nice")]
      , Js.obj [("role", Js.str "user"), ("content", Js.str "hi")] ]) }

def out6 : GRequest :=
  { model := "gpt-5.3-codex"
  , input := [GInputItem.message "user" "hi"]
  , max_output_tokens := 16384
  , instructions := some "be nice" }

/-! ## Lemmas about the streaming re-chunkers -/

lemma jsOrS_empty_right (s : String) : jsOrS s "" = s := by
  by_cases h : s = "" <;> simp [jsOrS, h]

lemma claudeRunFrom_append (model : String) (xs ys : List AEvent) (st : CState) :
    claudeRunFrom model st (xs ++ ys) =
      ((claudeRunFrom model (claudeRunFrom model st xs).1 ys).1,
       (claudeRunFrom model st xs).2 ++
         (claudeRunFrom model (claudeRunFrom model st xs).1 ys).2) := by
  induction xs generalizing st with
  | nil => simp [claudeRunFrom]
  | cons e es ih => simp [claudeRunFrom, ih, List.append_assoc]

lemma claudeRun_textFrags (model : String) (idx : Nat) (frags : List String)
    (st : CState) :
    claudeRunFrom model st
      (frags.map (fun t => AEvent.contentBlockDelta idx (ADelta.textDelta t))) =
      (st, frags.map (textChunkOf model)) := by
  induction frags generalizing st with
  | nil => simp [claudeRunFrom]
  | cons t ts ih => simp [claudeRunFrom, claudeStreamStep, ih, textChunkOf]

lemma claudeRun_jsonFrags (model : String) (idx : Nat) (frags : List String)
    (st : CState) :
    claudeRunFrom model st
      (frags.map (fun s => AEvent.contentBlockDelta idx (ADelta.inputJsonDelta s))) =
      (st, frags.map (argsChunkOf model st.currentToolCallIndex)) := by
  induction frags generalizing st with
  | nil => simp [claudeRunFrom]
  | cons s ss ih => simp [claudeRunFrom, claudeStreamStep, ih, argsChunkOf]

lemma claudeRun_phase (model : String) (p : APhase) (m : Nat → Option ABlockInfo)
    (k : Nat) :
    claudeRunFrom model ⟨m, k⟩ (aPhaseEvents p) =
      (⟨updateBlocks m (aPhaseIdx p) (aPhaseBlockInfo p), k + aPhaseToolCount p⟩,
       aPhaseChunksAt model k p) := by
  cases p with
  | textBlock idx frags =>
    simp [aPhaseEvents, claudeRunFrom, claudeStreamStep, claudeRunFrom_append,
      claudeRun_textFrags, aPhaseIdx, aPhaseBlockInfo, aPhaseToolCount,
      aPhaseChunksAt, updateBlocks]
  | toolBlock idx id name frags =>
    simp [aPhaseEvents, claudeRunFrom, claudeStreamStep, claudeRunFrom_append,
      claudeRun_jsonFrags, aPhaseIdx, aPhaseBlockInfo, aPhaseToolCount,
      aPhaseChunksAt, updateBlocks, headerChunkOf]

lemma claudeRun_phases (model : String) (ps : List APhase)
    (m : Nat → Option ABlockInfo) (k : Nat) :
    claudeRunFrom model ⟨m, k⟩ ((ps.map aPhaseEvents).flatten) =
      (⟨blocksAfter ps m, k + aToolCount ps⟩, aChunksFrom model k ps) := by
  induction ps generalizing m k with
  | nil => simp [claudeRunFrom, aToolCount, aChunksFrom, blocksAfter]
  | cons p ps ih =>
    simp [List.map_cons, List.flatten, claudeRunFrom_append, claudeRun_phase, ih,
      aToolCount, aChunksFrom, blocksAfter, Nat.add_assoc]

lemma gptRunFrom_append (model : String) (xs ys : List GEvent) (st : Nat) :
    gptRunFrom model st (xs ++ ys) =
      ((gptRunFrom model (gptRunFrom model st xs).1 ys).1,
       (gptRunFrom model st xs).2 ++
         (gptRunFrom model (gptRunFrom model st xs).1 ys).2) := by
  induction xs generalizing st with
  | nil => simp [gptRunFrom]
  | cons e es ih => simp [gptRunFrom, ih, List.append_assoc]

lemma gptRun_textFrags (model : String) (frags : List String) (st : Nat) :
    gptRunFrom model st (frags.map GEvent.outputTextDelta) =
      (st, frags.map (textChunkOf model)) := by
  induction frags generalizing st with
  | nil => simp [gptRunFrom]
  | cons t ts ih =>
    simp [gptRunFrom, gptStreamStep, ih, textChunkOf, jsOrS_empty_right]

lemma gptRun_argFrags (model : String) (frags : List String) (st : Nat) :
    gptRunFrom model st (frags.map GEvent.functionCallArgumentsDelta) =
      (st, frags.map (argsChunkOf model st)) := by
  induction frags generalizing st with
  | nil => simp [gptRunFrom]
  | cons s ss ih =>
    simp [gptRunFrom, gptStreamStep, ih, argsChunkOf, jsOrS_empty_right]

lemma gptRun_phase (model : String) (p : GPhase) (k : Nat) :
    gptRunFrom model k (gPhaseEvents p) =
      (k + gPhaseToolCount p, gPhaseChunksAt model k p) := by
  cases p with
  | textRun frags =>
    simp [gPhaseEvents, gptRun_textFrags, gPhaseToolCount, gPhaseChunksAt]
  | funcItem c i n frags =>
    simp [gPhaseEvents, gptRunFrom, gptStreamStep, gptRunFrom_append,
      gptRun_argFrags, gPhaseToolCount, gPhaseChunksAt, headerChunkOf,
      jsOrS_empty_right]

lemma gptRun_phases (model : String) (ps : List GPhase) (k : Nat) :
    gptRunFrom model k ((ps.map gPhaseEvents).flatten) =
      (k + gToolCount ps, gChunksFrom model k ps) := by
  induction ps generalizing k with
  | nil => simp [gptRunFrom, gToolCount, gChunksFrom]
  | cons p ps ih =>
    simp [List.map_cons, List.flatten, gptRunFrom_append, gptRun_phase, ih,
      gToolCount, gChunksFrom, Nat.add_assoc]

/-! ## Helper lemmas on the transcoders -/

lemma transformClaude_ok_fields (rt : JsRT) (cfg : Config) (req : ChatRequest)
    (out : ARequest) (h : transformRequestForClaude rt cfg req = Except.ok out) :
    out.model = cfg.AZURE_DEPLOYMENT_NAME
    ∧ out.max_tokens = jsOrInt req.max_tokens 8192
    ∧ ∃ tools0, mapClaudeTools req.tools = Except.ok tools0
        ∧ out.tools = (applyClaudeToolChoice tools0 req.tool_choice).1
        ∧ out.tool_choice = (applyClaudeToolChoice tools0 req.tool_choice).2 := by
  unfold transformRequestForClaude at h
  cases hb : buildClaudeMessages rt req with
  | error e => rw [hb] at h; exact absurd h (by simp)
  | ok msgs =>
    rw [hb] at h
    by_cases he : msgs.isEmpty
    · simp [he] at h
    · simp only [he, if_false, Bool.false_eq_true] at h
      cases ht : mapClaudeTools req.tools with
      | error e => rw [ht] at h; exact absurd h (by simp)
      | ok tools0 =>
        rw [ht] at h
        simp only [Except.ok.injEq] at h
        subst h
        exact ⟨rfl, rfl, tools0, rfl, rfl, rfl⟩

lemma mapEachClaudeTool_ok (l : List Tool)
    (h : ∀ t ∈ l, t.type = "function" → t.function.isSome) :
    ∃ r, mapEachClaudeTool l = Except.ok r := by
  induction l with
  | nil => exact ⟨[], rfl⟩
  | cons t ts ih =>
    obtain ⟨r, hr⟩ := ih (fun u hu => h u (List.mem_cons_of_mem t hu))
    have hone : ∃ a, mapClaudeTool t = Except.ok a := by
      by_cases hty : t.type = "function"
      · have hs := h t (List.mem_cons_self t ts) hty
        cases hf : t.function with
        | none => rw [hf] at hs; exact absurd hs (by simp)
        | some f =>
          exact ⟨ATool.native f.name f.description
            (jsOrJ f.parameters (Js.obj [("type", Js.str "object"), ("properties", Js.obj [])])),
            by simp [mapClaudeTool, hty, hf]⟩
      · exact ⟨ATool.passthrough t, by simp [mapClaudeTool, hty]⟩
    obtain ⟨a, ha⟩ := hone
    exact ⟨a :: r, by simp [mapEachClaudeTool, ha, hr]⟩

lemma mapClaudeTools_ok (ts : Option (List Tool))
    (h : ∀ t ∈ ts.getD [], t.type = "function" → t.function.isSome) :
    ∃ tools0, mapClaudeTools ts = Except.ok tools0 := by
  cases ts with
  | none => exact ⟨none, rfl⟩
  | some l =>
    by_cases hl : l.length > 0
    · obtain ⟨r, hr⟩ := mapEachClaudeTool_ok l (by simpa using h)
      exact ⟨some r, by simp [mapClaudeTools, hl, hr]⟩
    · exact ⟨none, by simp [mapClaudeTools, hl]⟩

lemma stripSysDev_clean (items : List GInputItem) (sp : Option String) :
    ∀ it ∈ (stripSysDev items sp).1, ∀ r c, it = GInputItem.message r c →
      r ≠ "system" ∧ r ≠ "developer" := by
  induction items generalizing sp with
  | nil => intro it hit; simp [stripSysDev] at hit
  | cons x rest ih =>
    intro it hit r c hrc
    cases x with
    | message xr xc =>
      by_cases hx : xr = "system" ∨ xr = "developer"
      · have : stripSysDev (GInputItem.message xr xc :: rest) sp =
            stripSysDev rest (if xc != "" then foldSys sp xc else sp) := by
          simp only [stripSysDev]
          split
          · rfl
          · rename_i hcon
            exact absurd hx (by simpa using hcon)
        rw [this] at hit
        exact ih _ it hit r c hrc
      · push_neg at hx
        have : (stripSysDev (GInputItem.message xr xc :: rest) sp).1 =
            GInputItem.message xr xc :: (stripSysDev rest sp).1 := by
          simp only [stripSysDev]
          split
          · rename_i hcon
            exact absurd (by simpa using hcon) (by simp [hx.1, hx.2])
          · rfl
        rw [this] at hit
        rcases List.mem_cons.mp hit with heq | hmem
        · subst heq
          cases hrc
          exact hx
        · exact ih sp it hmem r c hrc
    | functionCall a b cargs =>
      have : (stripSysDev (GInputItem.functionCall a b cargs :: rest) sp).1 =
          GInputItem.functionCall a b cargs :: (stripSysDev rest sp).1 := by
        simp [stripSysDev]
      rw [this] at hit
      rcases List.mem_cons.mp hit with heq | hmem
      · subst heq; cases hrc
      · exact ih sp it hmem r c hrc
    | functionCallOutput a b =>
      have : (stripSysDev (GInputItem.functionCallOutput a b :: rest) sp).1 =
          GInputItem.functionCallOutput a b :: (stripSysDev rest sp).1 := by
        simp [stripSysDev]
      rw [this] at hit
      rcases List.mem_cons.mp hit with heq | hmem
      · subst heq; cases hrc
      · exact ih sp it hmem r c hrc

/-! ## Claim theorems -/

/-- C8: the model router is a pure deterministic function of the model-name
string.  An empty or absent name routes to the Claude vendor; otherwise the
lower-cased name is tested against the GPT keywords (gpt, openai, codex, o1,
o3), routing to GPT exactly when one of them occurs in it and to Claude
otherwise; calling the router twice with the same string returns the same
vendor choice. -/
theorem claim_C8_router :
    routeModel none = Vendor.claude
    ∧ routeModel (some "") = Vendor.claude
    ∧ (∀ s : String, routeModel (some s) = Vendor.gpt ↔
        s ≠ "" ∧ ∃ p ∈ GPT_MODELS, strContains (strLower s) p = true)
    ∧ (∀ s : String, routeModel (some s) = Vendor.claude ↔
        ¬(s ≠ "" ∧ ∃ p ∈ GPT_MODELS, strContains (strLower s) p = true))
    ∧ (∀ s : String, routeModel (some s) = routeModel (some s)) := by
  have hgpt : ∀ s : String, isGPTModel s = true ↔
      s ≠ "" ∧ ∃ p ∈ GPT_MODELS, strContains (strLower s) p = true := by
    intro s
    by_cases h : s = "" <;> simp [isGPTModel, h, List.any_eq_true]
  refine ⟨rfl, rfl, fun s => ?_, fun s => ?_, fun s => rfl⟩
  · rw [← hgpt s]
    by_cases h : isGPTModel s <;>
      simp [routeModel, jsOrS_empty_right, h]
  · rw [← hgpt s]
    by_cases h : isGPTModel s <;>
      simp [routeModel, jsOrS_empty_right, h]

/-- C1: on the Vendor A stream content_block_start(tool_use, id X, name Y),
two input_json_delta fragments, content_block_stop, message_stop, the Claude
re-chunker emits a first tool-call chunk with id X, function name Y, empty
arguments at index 0, the two argument fragments at the same index 0, whose
concatenation is the full JSON string, and a terminal chunk with
finish_reason tool_calls followed by the DONE marker. -/
theorem claim_C1_tool_reassembly (X Y reqModel : String) (idx : Nat) :
    handleClaudeStreamingEvents reqModel (c1Events idx X Y) =
      [ SSEOut.chunk { object := "chat.completion.chunk"
                     , model := jsOrS reqModel "claude-opus-4-5"
                     , delta := ChunkDelta.toolCallHeader 0 X "function" Y ""
                     , finish_reason := none }
      , SSEOut.chunk { object := "chat.completion.chunk"
                     , model := jsOrS reqModel "claude-opus-4-5"
                     , delta := ChunkDelta.toolCallArgs 0 "\x7b\"a\":"
                     , finish_reason := none }
      , SSEOut.chunk { object := "chat.completion.chunk"
                     , model := jsOrS reqModel "claude-opus-4-5"
                     , delta := ChunkDelta.toolCallArgs 0 "1\x7d"
                     , finish_reason := none }
      , SSEOut.chunk { object := "chat.completion.chunk"
                     , model := jsOrS reqModel "claude-opus-4-5"
                     , delta := ChunkDelta.emptyDelta
                     , finish_reason := some "tool_calls" }
      , SSEOut.doneMarker ]
    ∧ toolArgsConcat (handleClaudeStreamingEvents reqModel (c1Events idx X Y)) 0 =
        "\x7b\"a\":1\x7d" := by
  constructor
  · simp [handleClaudeStreamingEvents, c1Events, claudeRunFrom, claudeStreamStep,
      initCState, updateBlocks]
  · have h2 : handleClaudeStreamingEvents reqModel (c1Events idx X Y) =
        [ SSEOut.chunk { object := "chat.completion.chunk"
                       , model := jsOrS reqModel "claude-opus-4-5"
                       , delta := ChunkDelta.toolCallHeader 0 X "function" Y ""
                       , finish_reason := none }
        , SSEOut.chunk { object := "chat.completion.chunk"
                       , model := jsOrS reqModel "claude-opus-4-5"
                       , delta := ChunkDelta.toolCallArgs 0 "\x7b\"a\":"
                       , finish_reason := none }
        , SSEOut.chunk { object := "chat.completion.chunk"
                       , model := jsOrS reqModel "claude-opus-4-5"
                       , delta := ChunkDelta.toolCallArgs 0 "1\x7d"
                       , finish_reason := none }
        , SSEOut.chunk { object := "chat.completion.chunk"
                       , model := jsOrS reqModel "claude-opus-4-5"
                       , delta := ChunkDelta.emptyDelta
                       , finish_reason := some "tool_calls" }
        , SSEOut.doneMarker ] := by
      simp [handleClaudeStreamingEvents, c1Events, claudeRunFrom, claudeStreamStep,
        initCState, updateBlocks]
    rw [h2]
    rfl

/-- C2: over every well-formed vendor stream (complete blocks and items in
sequence), both re-chunkers emit, for the k-th distinct tool call in stream
order (zero-based), its header chunk and all of its argument-fragment chunks
at the same stable index k, the counter advancing exactly when a tool_use
block (Claude) or function_call item (GPT) closes; the output equals the
expected chunk sequence in full. -/
theorem claim_C2_stream_tool_index :
    (∀ (reqModel : String) (ps : List APhase),
      handleClaudeStreamingEvents reqModel (aStream ps) =
        aExpected (jsOrS reqModel "claude-opus-4-5") ps)
    ∧ (∀ (reqModel cfgModel : String) (ps : List GPhase),
      handleGPTStreamingEvents reqModel cfgModel (gStream ps) =
        gExpected (jsOrS reqModel cfgModel) ps) := by
  constructor
  · intro reqModel ps
    simp [handleClaudeStreamingEvents, aStream, aExpected, claudeRunFrom_append,
      initCState, claudeRun_phases, claudeRunFrom, claudeStreamStep, finalChunkOf]
  · intro reqModel cfgModel ps
    simp [handleGPTStreamingEvents, gStream, gExpected, gptRunFrom_append,
      gptRun_phases, gptRunFrom, gptStreamStep, finalChunkOf]

/-- C3: the single-turn request with one user message hi transcodes to a
Vendor A request with one user message; back-transcoding the canned
response (text hello, stop_reason end_turn, usage 3/2) yields content
hello, finish_reason stop, and total_tokens 5; the stop_reason map sends
tool_use to tool_calls, end_turn to stop, and passes anything else through
verbatim; total_tokens is always prompt_tokens plus completion_tokens. -/
theorem claim_C3_roundtrip :
    (∀ (rt : JsRT) (cfg : Config),
      transformRequestForClaude rt cfg reqSingleHi =
        Except.ok
          { model := cfg.AZURE_DEPLOYMENT_NAME
          , messages := [{ role := "user"
                         , content := AContent.raw (JVal.val (Js.str "hi")) }]
          , max_tokens := 8192 })
    ∧ (∀ rt : JsRT,
        (transformClaudeResponse rt cannedHelloResponse).content = some "hello"
        ∧ (transformClaudeResponse rt cannedHelloResponse).finish_reason = "stop"
        ∧ (transformClaudeResponse rt cannedHelloResponse).total_tokens = 5)
    ∧ (∀ (rt : JsRT) (r : AnthropicResponse),
        (r.stop_reason = "tool_use" →
          (transformClaudeResponse rt r).finish_reason = "tool_calls")
        ∧ (r.stop_reason = "end_turn" →
          (transformClaudeResponse rt r).finish_reason = "stop")
        ∧ (r.stop_reason ≠ "tool_use" → r.stop_reason ≠ "end_turn" →
          (transformClaudeResponse rt r).finish_reason = r.stop_reason))
    ∧ (∀ (rt : JsRT) (r : AnthropicResponse),
        (transformClaudeResponse rt r).total_tokens =
          (transformClaudeResponse rt r).prompt_tokens +
            (transformClaudeResponse rt r).completion_tokens) := by
  refine ⟨fun rt cfg => rfl, fun rt => ⟨rfl, rfl, rfl⟩, fun rt r => ?_, fun rt r => rfl⟩
  refine ⟨fun h => ?_, fun h => ?_, fun h1 h2 => ?_⟩
  · simp [transformClaudeResponse, h]
  · simp [transformClaudeResponse, h]
  · simp [transformClaudeResponse, h1, h2]

/-- Witness for C3: the stop_reason map evaluated at the three concrete
cases tool_use, end_turn, and an unrecognized reason. -/
theorem claim_C3_roundtrip_witness :
    (transformClaudeResponse rt0 { stop_reason := "tool_use" }).finish_reason = "tool_calls"
    ∧ (transformClaudeResponse rt0 { stop_reason := "end_turn" }).finish_reason = "stop"
    ∧ (transformClaudeResponse rt0 { stop_reason := "max_tokens" }).finish_reason = "max_tokens" :=
  ⟨(claim_C3_roundtrip.2.2.1 rt0 { stop_reason := "tool_use" }).1 rfl,
   (claim_C3_roundtrip.2.2.1 rt0 { stop_reason := "end_turn" }).2.1 rfl,
   (claim_C3_roundtrip.2.2.1 rt0 { stop_reason := "max_tokens" }).2.2
     (by decide) (by decide)⟩

/-- C5: in the messages-array path of the Claude request transcoder, a
message whose content is well typed (absent, null, a string, or a parts
array) is dropped exactly when it has neither content (the empty string and
the empty array count as content) nor a tool_calls field; in particular an
assistant message whose only payload is tool_calls (content absent or null)
is kept, and its translation appears in the produced message list. -/
theorem claim_C5_message_filter :
    (∀ m : Message, contentWellTyped m.content →
      (keepClaudeMessage (some m) = false ↔
        ¬hasStrOrArrContent m.content ∧ m.tool_calls = none))
    ∧ (∀ (m : Message) (msgs : List (Option Message)) (tcs : List ToolCall),
        m.tool_calls = some tcs →
        (m.content = JVal.undef ∨ m.content = JVal.null) →
        (some m) ∈ msgs →
        keepClaudeMessage (some m) = true
        ∧ (some m) ∈ msgs.filter keepClaudeMessage)
    ∧ (∀ (rt : JsRT) (req : ChatRequest) (msgs : List (Option Message))
        (m : Message) (tcs : List ToolCall),
        req.messages = some msgs → m.tool_calls = some tcs → (some m) ∈ msgs →
        ∃ L, buildClaudeMessages rt req = Except.ok L
          ∧ mapClaudeMessage rt m ∈ L) := by
  refine ⟨fun m hwt => ?_, fun m msgs tcs htc hc hm => ?_, ?_⟩
  · rcases hwt with h | h | h
    · cases htc : m.tool_calls <;>
        simp [keepClaudeMessage, h, hasStrOrArrContent, htc, jsTruthyV]
    · cases htc : m.tool_calls <;>
        simp [keepClaudeMessage, h, hasStrOrArrContent, htc, jsTruthyV]
    · rcases h with ⟨s, hs⟩ | ⟨ps, hp⟩
      · by_cases he : s = "" <;>
          simp [keepClaudeMessage, hs, hasStrOrArrContent, jsTruthyV, jsTruthy, he]
      · simp [keepClaudeMessage, hp, hasStrOrArrContent, jsTruthyV, jsTruthy]
  · have hk : keepClaudeMessage (some m) = true := by
      simp [keepClaudeMessage, htc]
    exact ⟨hk, List.mem_filter.mpr ⟨hm, hk⟩⟩
  · intro rt req msgs m tcs hmsgs htc hm
    have hk : keepClaudeMessage (some m) = true := by
      simp [keepClaudeMessage, htc]
    refine ⟨(msgs.filter keepClaudeMessage).map
      (fun om => match om with
        | some m => mapClaudeMessage rt m
        | none => { role := "user", content := AContent.raw JVal.undef }), ?_, ?_⟩
    · simp [buildClaudeMessages, hmsgs]
    · exact List.mem_map.mpr ⟨some m, List.mem_filter.mpr ⟨hm, hk⟩, rfl⟩

/-- Witness for C5: an assistant message carrying only tool_calls is kept
and its translation appears in the transcoded list. -/
theorem claim_C5_message_filter_witness :
    keepClaudeMessage (some m4) = true
    ∧ (some m4) ∈ [some m4].filter keepClaudeMessage
    ∧ ∃ L, buildClaudeMessages rt0 req4 = Except.ok L ∧ mapClaudeMessage rt0 m4 ∈ L :=
  ⟨(claim_C5_message_filter.2.1 m4 [some m4] [tc4] rfl (Or.inl rfl)
      (List.mem_singleton.mpr rfl)).1,
   (claim_C5_message_filter.2.1 m4 [some m4] [tc4] rfl (Or.inl rfl)
      (List.mem_singleton.mpr rfl)).2,
   claim_C5_message_filter.2.2 rt0 req4 [some m4] m4 [tc4] rfl rfl
      (List.mem_singleton.mpr rfl)⟩

/-- C4: an assistant message carrying tool_calls never fails the Claude
request transcoder because of an unparseable arguments string: with any such
message present (and no malformed tool entry, a separate failure cause) the
transcoding succeeds, and every tool call whose arguments string fails to
parse produces a tool_use block whose input is the empty object. -/
theorem claim_C4_args_fallback (rt : JsRT) (cfg : Config) (req : ChatRequest)
    (msgs : List (Option Message)) (m : Message) (tcs : List ToolCall)
    (hmsgs : req.messages = some msgs) (hm : (some m) ∈ msgs)
    (htc : m.tool_calls = some tcs)
    (htools : ∀ t ∈ req.tools.getD [], t.type = "function" → t.function.isSome) :
    (∃ out, transformRequestForClaude rt cfg req = Except.ok out)
    ∧ (∀ tc ∈ tcs, ∀ (f : ToolCallFn) (s : String),
        tc.function = some f → f.arguments = some (Js.str s) →
        rt.parseJson s = none →
        toolCallInput rt tc = Js.obj []
        ∧ mapToolCallBlock rt tc =
            ABlock.toolUse tc.id (toolCallName tc) (Js.obj [])) := by
  constructor
  · have hk : keepClaudeMessage (some m) = true := by
      simp [keepClaudeMessage, htc]
    have hmem : (some m) ∈ msgs.filter keepClaudeMessage :=
      List.mem_filter.mpr ⟨hm, hk⟩
    have hne : msgs.filter keepClaudeMessage ≠ [] := List.ne_nil_of_mem hmem
    obtain ⟨tools0, htools0⟩ := mapClaudeTools_ok req.tools htools
    refine ⟨{ model := cfg.AZURE_DEPLOYMENT_NAME
            , messages := (msgs.filter keepClaudeMessage).map
                (fun om => match om with
                  | some m => mapClaudeMessage rt m
                  | none => { role := "user", content := AContent.raw JVal.undef })
            , max_tokens := jsOrInt req.max_tokens 8192
            , temperature := req.temperature
            , stream := req.stream
            , tools := (applyClaudeToolChoice tools0 req.tool_choice).1
            , tool_choice := (applyClaudeToolChoice tools0 req.tool_choice).2
            , metadata := req.metadata
            , stop_sequences := req.stop_sequences
            , top_p := req.top_p
            , top_k := req.top_k
            , system := mapSystemField rt req.system }, ?_⟩
    unfold transformRequestForClaude
    rw [show buildClaudeMessages rt req = Except.ok ((msgs.filter keepClaudeMessage).map
      (fun om => match om with
        | some m => mapClaudeMessage rt m
        | none => { role := "user", content := AContent.raw JVal.undef }))
      from by simp [buildClaudeMessages, hmsgs]]
    have hempty : ((msgs.filter keepClaudeMessage).map
        (fun om => match om with
          | some m => mapClaudeMessage rt m
          | none => { role := "user", content := AContent.raw JVal.undef })).isEmpty = false := by
      simp [List.isEmpty_iff, hne]
    simp only [hempty, htools0, Bool.false_eq_true, if_false]
  · intro tc _ f s hf ha hp
    constructor
    · simp [toolCallInput, hf, ha, hp]
    · simp [mapToolCallBlock, toolCallInput, hf, ha, hp]

/-- Witness for C4: a concrete assistant message whose single tool call has
the unparseable arguments string, transcoded with a runtime whose parser
fails; the transcoding succeeds and the input degrades to the empty object. -/
theorem claim_C4_args_fallback_witness :
    (∃ out, transformRequestForClaude rt0 cfg0 req4 = Except.ok out)
    ∧ toolCallInput rt0 tc4 = Js.obj []
    ∧ mapToolCallBlock rt0 tc4 =
        ABlock.toolUse tc4.id (toolCallName tc4) (Js.obj []) :=
  ⟨(claim_C4_args_fallback rt0 cfg0 req4 [some m4] m4 [tc4] rfl
      (List.mem_singleton.mpr rfl) rfl (by simp [req4])).1,
   ((claim_C4_args_fallback rt0 cfg0 req4 [some m4] m4 [tc4] rfl
      (List.mem_singleton.mpr rfl) rfl (by simp [req4])).2 tc4
      (List.mem_singleton.mpr rfl) { name := "f", arguments := some (Js.str "not json") }
      "not json" rfl rfl rfl).1,
   ((claim_C4_args_fallback rt0 cfg0 req4 [some m4] m4 [tc4] rfl
      (List.mem_singleton.mpr rfl) rfl (by simp [req4])).2 tc4
      (List.mem_singleton.mpr rfl) { name := "f", arguments := some (Js.str "not json") }
      "not json" rfl rfl rfl).2⟩

/-- C7: for every request the Claude transcoder accepts, the Vendor A
request carries the fixed configured deployment model name: the caller
model string is replaced, whatever it was. -/
theorem claim_C7_fixed_deployment (rt : JsRT) (cfg : Config) (req : ChatRequest)
    (out : ARequest) (h : transformRequestForClaude rt cfg req = Except.ok out) :
    out.model = cfg.AZURE_DEPLOYMENT_NAME :=
  (transformClaude_ok_fields rt cfg req out h).1

/-- Witness for C7: a caller-supplied model name matching no mapping is
still replaced by the configured deployment name. -/
theorem claim_C7_fixed_deployment_witness :
    transformRequestForClaude rt0 cfg0 reqC7 = Except.ok outC7
    ∧ outC7.model = "claude-opus-4-5" :=
  ⟨rfl, claim_C7_fixed_deployment rt0 cfg0 reqC7 outC7 rfl⟩

/-- C9: tool_choice handling of the Claude request transcoder: the string
none removes the tools key entirely (even when tools was non-empty), auto
maps to type auto, required maps to type any, and an object naming a
function maps to type tool with that name. -/
theorem claim_C9_tool_choice_none (rt : JsRT) (cfg : Config) (req : ChatRequest)
    (out : ARequest) (h : transformRequestForClaude rt cfg req = Except.ok out) :
    (req.tool_choice = some (ToolChoice.str "none") → out.tools = none)
    ∧ (req.tool_choice = some (ToolChoice.str "auto") →
        out.tool_choice = some AToolChoice.auto)
    ∧ (req.tool_choice = some (ToolChoice.str "required") →
        out.tool_choice = some AToolChoice.any)
    ∧ (∀ n, n ≠ "" → req.tool_choice = some (ToolChoice.obj n) →
        out.tool_choice = some (AToolChoice.tool n)) := by
  obtain ⟨-, -, tools0, -, h1, h2⟩ := transformClaude_ok_fields rt cfg req out h
  refine ⟨fun hc => ?_, fun hc => ?_, fun hc => ?_, fun n hn hc => ?_⟩
  · rw [h1, hc]; simp [applyClaudeToolChoice, toolChoiceTruthy]
  · rw [h2, hc]; simp [applyClaudeToolChoice, toolChoiceTruthy]
  · rw [h2, hc]; simp [applyClaudeToolChoice, toolChoiceTruthy]
  · rw [h2, hc]; simp [applyClaudeToolChoice, toolChoiceTruthy, hn]

/-- Witness for C9: a request with a non-empty tools array and tool_choice
none transcodes to a Vendor A request with no tools key. -/
theorem claim_C9_tool_choice_none_witness :
    transformRequestForClaude rt0 cfg0 req9 = Except.ok out9
    ∧ out9.tools = none :=
  ⟨rfl, (claim_C9_tool_choice_none rt0 cfg0 req9 out9 rfl).1 rfl⟩

/-- C10: a falsy max_tokens (zero, null, or absent) is replaced by the
default 8192 in the Vendor A request; a non-zero value is forwarded. -/
theorem claim_C10_max_tokens_default (rt : JsRT) (cfg : Config) (req : ChatRequest)
    (out : ARequest) (h : transformRequestForClaude rt cfg req = Except.ok out) :
    ((req.max_tokens = JVal.val 0 ∨ req.max_tokens = JVal.null
        ∨ req.max_tokens = JVal.undef) → out.max_tokens = 8192)
    ∧ (∀ n : Int, req.max_tokens = JVal.val n → n ≠ 0 → out.max_tokens = n) := by
  have hmt := (transformClaude_ok_fields rt cfg req out h).2.1
  constructor
  · rintro (hc | hc | hc) <;> rw [hmt, hc] <;> simp [jsOrInt]
  · intro n hc hn
    rw [hmt, hc]
    simp [jsOrInt, hn]

/-- Witness for C10: max_tokens present but equal to 0 yields 8192. -/
theorem claim_C10_max_tokens_default_witness :
    transformRequestForClaude rt0 cfg0 req10 = Except.ok out10
    ∧ out10.max_tokens = 8192 :=
  ⟨rfl, (claim_C10_max_tokens_default rt0 cfg0 req10 out10 rfl).1 (Or.inl rfl)⟩

/-- C6: in structured mode, no item of the input list produced by the GPT
request transcoder is a message tagged with role system or developer,
whether the content arrived via the messages array or via the input array:
such content is folded into the instructions string and stripped from the
items before the vendor payload is built. -/
theorem claim_C6_gpt_no_sysdev (rt : JsRT) (cfg : Config) (req : ChatRequest)
    (out : GRequest) (h : transformRequestForGPT rt cfg req = Except.ok out) :
    ∀ it ∈ out.input, ∀ r c, it = GInputItem.message r c →
      r ≠ "system" ∧ r ≠ "developer" := by
  simp only [transformRequestForGPT] at h
  by_cases hE : (stripSysDev (gptBuildItems rt req).1 (gptBuildItems rt req).2).1.isEmpty
  · rw [if_pos hE] at h
    exact absurd h (by simp)
  · rw [if_neg hE] at h
    simp only [Except.ok.injEq] at h
    subst h
    intro it hit r c hrc
    exact stripSysDev_clean _ _ it hit r c hrc

/-- Witness for C6: an input array carrying a system entry and a user entry
transcodes to a single user item with the system text in instructions; the
surviving item is not system or developer tagged. -/
theorem claim_C6_gpt_no_sysdev_witness :
    transformRequestForGPT rt0 cfg0 req6 = Except.ok out6
    ∧ ("user" ≠ "system" ∧ "user" ≠ "developer") :=
  ⟨rfl, claim_C6_gpt_no_sysdev rt0 cfg0 req6 out6 rfl (GInputItem.message "user" "hi")
      (by simp [out6]) "user" "hi" rfl⟩

/-- Witness for C8: a GPT-keyword name routes to GPT, a Claude name routes
to Claude. -/
theorem claim_C8_router_witness :
    routeModel (some "gpt-4o") = Vendor.gpt
    ∧ routeModel (some "claude-opus-4-5") = Vendor.claude :=
  ⟨(claim_C8_router.2.2.1 "gpt-4o").mpr (by decide),
   (claim_C8_router.2.2.2.1 "claude-opus-4-5").mpr (by decide)⟩
